import Mathlib

set_option maxRecDepth 100000

/-!
Shallow embedding of the WerTigo recommendation server core
(`app.py` lexical `RecommendationEngine` and `model.py` embedding variant),
used to check the natural-language specification against the code.

Python strings are modelled as Lean `String`, pandas numeric columns as `ℚ`
(`NaN` entries as `Option.none`), and a pandas DataFrame as a `List` of
records in index order.  `DataFrame.nlargest(n, col)` (with the default
`keep = "first"`) is modelled as a stable descending sort by the column
followed by `take n`, which is its documented semantics.  The similarity
backends (TF-IDF cosine / RoBERTa-embedding cosine) are kept abstract as a
function from effective search text and destination to a score.
-/

/-! ## String utilities mirroring the Python primitives used by the code -/

/-- Python `str.lower()` (character-wise lowercasing). -/
def lowerStr (s : String) : String :=
  String.mk (s.data.map Char.toLower)

/-- Is `pat` a prefix of `s` (exact characters)? -/
def isPrefixCharList : List Char → List Char → Bool
  | [], _ => true
  | _ :: _, [] => false
  | p :: ps, c :: cs => p == c && isPrefixCharList ps cs

/-- Does `pat` occur as a contiguous substring of `s`? -/
def containsSub (pat : List Char) : List Char → Bool
  | [] => pat.isEmpty
  | c :: cs => isPrefixCharList pat (c :: cs) || containsSub pat cs

/-- Python `pat in s` on strings (substring containment). -/
def strContains (s pat : String) : Bool :=
  containsSub pat.data s.data

/-- Code-point lexicographic comparison of character lists. -/
def charListLe : List Char → List Char → Bool
  | [], _ => true
  | _ :: _, [] => false
  | a :: as, b :: bs =>
    if a.val < b.val then true
    else if b.val < a.val then false
    else charListLe as bs

/-- Python string `<=` (code-point lexicographic order). -/
def strLe (a b : String) : Bool :=
  charListLe a.data b.data

/-- Insert a string into an ascending list (for modelling Python `sorted`). -/
def insertStr (a : String) : List String → List String
  | [] => [a]
  | b :: bs => if strLe a b then a :: b :: bs else b :: insertStr a bs

/-- Python `sorted` on a list of strings (insertion sort, ascending). -/
def sortStrs : List String → List String
  | [] => []
  | x :: xs => insertStr x (sortStrs xs)

/-- A regex word character (`\w`): alphanumeric or underscore. -/
def isWordChar (c : Char) : Bool :=
  c.isAlphanum || c == '_'

/-- Case-insensitive literal match of `pat` at the head of `s`; returns the
remaining suffix on success. -/
def matchCI : List Char → List Char → Option (List Char)
  | [], s => some s
  | _ :: _, [] => none
  | p :: ps, c :: cs => if p.toLower == c.toLower then matchCI ps cs else none

/-- Case-insensitive match of `pat` at the head of `s` that also requires a
word boundary after the match (next character not a word character). -/
def matchWordCI (pat : List Char) (s : List Char) : Option (List Char) :=
  match matchCI pat s with
  | some rest =>
    match rest with
    | [] => some []
    | c :: _ => if isWordChar c then none else some rest
  | none => none

/-- Fuel-driven scanner for `re.sub(r"\b" + re.escape(pat) + r"\b", "", s,
flags = re.IGNORECASE)` restricted to patterns that begin and end with a word
character (true of every corpus city/category name).  `prevIsWord` records
whether the previous character of the original string was a word character,
which decides the leading `\b`. -/
def removeWordCIGo (pat : List Char) : Nat → Bool → List Char → List Char
  | 0, _, s => s
  | _ + 1, _, [] => []
  | fuel + 1, prevIsWord, c :: cs =>
    match pat with
    | [] => c :: cs
    | p :: ps =>
      if prevIsWord then c :: removeWordCIGo pat fuel (isWordChar c) cs
      else
        match matchWordCI (p :: ps) (c :: cs) with
        | some rest =>
          removeWordCIGo pat fuel (isWordChar ((p :: ps).getLast (List.cons_ne_nil p ps))) rest
        | none => c :: removeWordCIGo pat fuel (isWordChar c) cs

/-- All word-boundary case-insensitive occurrences of `pat` removed from `s`. -/
def removeWordCIL (pat s : List Char) : List Char :=
  removeWordCIGo pat s.length false s

/-- `re.sub(r"\b" + re.escape(pat) + r"\b", "", s, flags = re.IGNORECASE)`. -/
def reSubWordCI (pat s : String) : String :=
  String.mk (removeWordCIL pat.data s.data)

/-- `re.sub(r"\s+", " ", s)`: collapse every maximal whitespace run to one
space.  The flag records whether the previous character was whitespace. -/
def collapseWsL : Bool → List Char → List Char
  | _, [] => []
  | prevWs, c :: cs =>
    if c.isWhitespace then
      if prevWs then collapseWsL true cs else ' ' :: collapseWsL true cs
    else c :: collapseWsL false cs

/-- Python `str.strip()`: drop leading and trailing whitespace. -/
def stripStr (s : String) : String :=
  String.mk (((s.data.dropWhile Char.isWhitespace).reverse.dropWhile Char.isWhitespace).reverse)

/-- The cleaned query of `model.extract_query_info` (lines 176-183 of
`model.py`): the extracted city then the extracted category are removed from
the query text as whole words, case-insensitively, and whitespace is
collapsed and stripped. -/
def cleanedQueryM (queryText : String) (extractedCity extractedCategory : Option String) : String :=
  let s1 := match extractedCity with
    | some c => reSubWordCI c queryText
    | none => queryText
  let s2 := match extractedCategory with
    | some c => reSubWordCI c s1
    | none => s1
  stripStr (String.mk (collapseWsL false s2.data))

/-! ## Data model -/

/-- One destination record of the corpus (a row of the dataset after the
load-time coercions).  `rating` is the `ratings` column (missing values
already defaulted to 4.0 at load time), `budget` is the numeric budget with
`none` for a value that is `NaN` after `pd.to_numeric(..., errors="coerce")`.
`categories` is `model.py`'s `all_categories` (the comma-split category
field); `category` is the raw single-label field used by `app.py`. -/
structure Destination where
  id : Nat
  name : String
  city : String
  province : String
  description : String
  category : String
  categories : List String
  rating : ℚ
  budget : Option ℚ
deriving DecidableEq, Repr

/-- `self.available_cities`: sorted distinct city list of the corpus. -/
def availableCitiesOf (corpus : List Destination) : List String :=
  sortStrs ((corpus.map (fun d => d.city)).eraseDups)

/-- `self.available_categories`: sorted distinct category list. -/
def availableCategoriesOf (corpus : List Destination) : List String :=
  sortStrs ((corpus.map (fun d => d.category)).eraseDups)

/-! ## Stable descending selection (pandas `nlargest`, `keep = "first"`) -/

/-- Insert `a` into a descending-sorted list, before the first element whose
key is `≤` the key of `a` (stable: `a` precedes later elements with an equal
key). -/
def insertDesc (key : α → ℚ) (a : α) : List α → List α
  | [] => [a]
  | b :: bs => if key b ≤ key a then a :: b :: bs else b :: insertDesc key a bs

/-- Stable descending sort by `key`; `(sortDesc key l).take n` models
`nlargest(n, key)` with ties kept in original order. -/
def sortDesc (key : α → ℚ) : List α → List α
  | [] => []
  | x :: xs => insertDesc key x (sortDesc key xs)

/-! ## Query Interpreter (lexical engine, `RecommendationEngine.extract_query_info`) -/

/-- The `detected_info` dictionary of `extract_query_info` in `app.py`. -/
structure QueryInfo where
  city : Option String
  category : Option String
  budgetPreference : Option String
  ratingFilter : Option ℚ
deriving DecidableEq, Repr

/-- The fixed `category_keywords` taxonomy of `app.py` (insertion order). -/
def categoryKeywordsLex : List (String × List String) :=
  [("restaurant", ["restaurant", "food", "dining", "eat", "cuisine"]),
   ("beach", ["beach", "swimming", "seaside", "coastal"]),
   ("historical site", ["historical", "history", "heritage", "monument", "shrine"]),
   ("natural attraction", ["nature", "natural", "hiking", "falls", "mountain"]),
   ("resort", ["resort", "hotel", "accommodation", "stay"]),
   ("museum", ["museum", "gallery", "art", "exhibit"]),
   ("leisure", ["fun", "entertainment", "amusement", "park"]),
   ("shopping", ["shopping", "mall", "market", "shop"])]

/-- City detection: first available city (in sorted order) whose lowercase
form occurs as a substring of the lowercase query. -/
def detectCityLex (availCities : List String) (qLower : String) : Option String :=
  availCities.find? (fun c => strContains qLower (lowerStr c))

/-- Category detection: first taxonomy family with a keyword occurring in the
query, mapped to the first available category containing the family name;
families whose keywords match but with no corresponding available category
are skipped. -/
def detectCategoryLex (availCats : List String) (qLower : String) : Option String :=
  (categoryKeywordsLex.filterMap (fun fam =>
    if fam.2.any (fun kw => strContains qLower kw) then
      availCats.find? (fun avail => strContains (lowerStr avail) (lowerStr fam.1))
    else none)).head?

/-- `RecommendationEngine.extract_query_info` (`app.py` lines 111-160). -/
def extractQueryInfoLex (availCities availCats : List String) (queryText : String) : QueryInfo :=
  let qLower := lowerStr queryText
  { city := detectCityLex availCities qLower
    category := detectCategoryLex availCats qLower
    budgetPreference :=
      if ["cheap", "budget", "affordable", "low cost"].any (fun w => strContains qLower w) then
        some "low"
      else if ["expensive", "luxury", "premium", "high-end"].any (fun w => strContains qLower w) then
        some "high"
      else none
    ratingFilter :=
      if ["best", "top rated", "highly rated", "excellent"].any (fun w => strContains qLower w) then
        some (9 / 2)
      else none }

/-! ## Filter resolution (Python `or` on optional caller values) -/

/-- Python `a or b` for an optional string: the caller value wins unless it is
falsy (`None` or the empty string). -/
def pyOrStr (a b : Option String) : Option String :=
  match a with
  | some s => if s.isEmpty then b else some s
  | none => b

/-- Python `a or b` for an optional number: the caller value wins unless it is
falsy (`None` or `0`). -/
def pyOrQ (a b : Option ℚ) : Option ℚ :=
  match a with
  | some x => if x = 0 then b else some x
  | none => b

/-! ## Lexical Filter-and-Rank pipeline (`RecommendationEngine.get_recommendations`) -/

/-- Does a destination pass the (possibly inactive) city filter?  A `none`
or empty filter is a no-op, mirroring Python truthiness of `if city:`. -/
def cityOkB (o : Option String) (d : Destination) : Bool :=
  match o with
  | some c => c.isEmpty || (lowerStr d.city == lowerStr c)
  | none => true

/-- Does a destination pass the (possibly inactive) category filter? -/
def catOkB (o : Option String) (d : Destination) : Bool :=
  match o with
  | some c => c.isEmpty || (lowerStr d.category == lowerStr c)
  | none => true

/-- Does a destination pass the (possibly inactive) rating filter?  Python
`if rating_threshold:` treats `0` as inactive. -/
def ratingOkB (o : Option ℚ) (d : Destination) : Bool :=
  match o with
  | some x => (x == 0) || decide (x ≤ d.rating)
  | none => true

/-- `app.py` lines 177-178: `if city:` then keep the rows whose city equals
the filter case-insensitively. -/
def lexCityStage (city : Option String) (l : List (Nat × Destination)) :
    List (Nat × Destination) :=
  match city with
  | some c => if c.isEmpty then l else l.filter (fun p => lowerStr p.2.city == lowerStr c)
  | none => l

/-- `app.py` lines 180-181: the category equality filter. -/
def lexCategoryStage (category : Option String) (l : List (Nat × Destination)) :
    List (Nat × Destination) :=
  match category with
  | some c => if c.isEmpty then l else l.filter (fun p => lowerStr p.2.category == lowerStr c)
  | none => l

/-- `app.py` lines 183-184: `if rating_threshold:` then keep the rows with
`ratings >= rating_threshold` (a threshold of 0 is falsy, hence inactive). -/
def lexRatingStage (ratingThreshold : Option ℚ) (l : List (Nat × Destination)) :
    List (Nat × Destination) :=
  match ratingThreshold with
  | some r => if r == 0 then l else l.filter (fun p => decide (r ≤ p.2.rating))
  | none => l

/-- The AND cascade of `app.py` lines 176-184 on index-tagged rows:
city, then category, then rating; each filter applies only when truthy. -/
def lexFilter (l : List (Nat × Destination)) (city category : Option String)
    (ratingThreshold : Option ℚ) : List (Nat × Destination) :=
  lexRatingStage ratingThreshold (lexCategoryStage category (lexCityStage city l))

/-- The effective filters of `app.py` lines 166-171: caller-supplied values
merged with detected ones by Python `or`. -/
def lexEffectiveFilters (corpus : List Destination) (queryText : String)
    (cityFilter categoryFilter : Option String) (ratingFilter : Option ℚ) :
    Option String × Option String × Option ℚ :=
  let info := extractQueryInfoLex (availableCitiesOf corpus) (availableCategoriesOf corpus) queryText
  (pyOrStr cityFilter info.city, pyOrStr categoryFilter info.category,
   pyOrQ ratingFilter info.ratingFilter)

/-- The filtered candidate set (with original corpus indices) of one
`get_recommendations` call. -/
def lexFilteredOf (corpus : List Destination) (queryText : String)
    (cityFilter categoryFilter : Option String) (ratingFilter : Option ℚ) :
    List (Nat × Destination) :=
  let e := lexEffectiveFilters corpus queryText cityFilter categoryFilter ratingFilter
  lexFilter corpus.enum e.1 e.2.1 e.2.2

/-- The text handed to the TF-IDF backend:
`tfidf_vectorizer.transform([query_text.lower()])` (`app.py` line 191) uses
the lowercased raw query, not the cleaned query. -/
def lexSearchText (queryText : String) : String :=
  lowerStr queryText

/-- One entry of the ranked recommendation list. -/
structure RankedItem where
  dest : Destination
  corpusIdx : Nat
  similarityScore : ℚ
  combinedScore : ℚ
deriving DecidableEq, Repr

/-- Attach the backend similarity and the combined score
`similarity * 0.7 + (ratings / 5.0) * 0.3` (`app.py` lines 199-205) to a
filtered row. -/
def mkRankedItem (sim : String → Destination → ℚ) (queryText : String)
    (p : Nat × Destination) : RankedItem :=
  { dest := p.2
    corpusIdx := p.1
    similarityScore := sim (lexSearchText queryText) p.2
    combinedScore :=
      sim (lexSearchText queryText) p.2 * (7 / 10) + p.2.rating / 5 * (3 / 10) }

/-- The scored candidate list of one `get_recommendations` call. -/
def lexScored (sim : String → Destination → ℚ) (corpus : List Destination)
    (queryText : String) (cityFilter categoryFilter : Option String)
    (ratingFilter : Option ℚ) : List RankedItem :=
  (lexFilteredOf corpus queryText cityFilter categoryFilter ratingFilter).map
    (mkRankedItem sim queryText)

/-- A conversational (fallback) payload as produced by
`RecommendationEngine._handle_no_results` (`app.py` lines 244-295). -/
structure FallbackPayload where
  message : String
  internationalQueryDetected : Bool := false
  detectedCity : Option String := none
  detectedCategory : Option String := none
  availableCities : List String := []
  availableCategories : List String := []
  suggestions : List String := []
deriving DecidableEq, Repr

/-- The fixed `international_keywords` list of `_handle_no_results`
(duplicated `"singapore"` kept as in the source). -/
def internationalKeywords : List String :=
  ["japan", "korea", "china", "thailand", "singapore", "malaysia", "indonesia",
   "vietnam", "usa", "america", "europe", "france", "italy", "spain", "germany",
   "tokyo", "seoul", "bangkok", "kuala lumpur", "singapore", "bali"]

/-- Python truthiness of an optional string. -/
def truthyStr (o : Option String) : Bool :=
  match o with
  | some s => !s.isEmpty
  | none => false

/-- `RecommendationEngine._handle_no_results`: the out-of-domain check comes
first, then the city-without-category and category-without-city branches,
then the generic suggestion payload. -/
def handleNoResults (corpus : List Destination) (queryText : String)
    (city category : Option String) : FallbackPayload :=
  if internationalKeywords.any (fun k => strContains (lowerStr queryText) k) then
    { message := "I specialize in Philippine destinations only. Let me help you discover amazing places in the Philippines!"
      internationalQueryDetected := true
      availableCities := (availableCitiesOf corpus).take 10
      suggestions := ["Beautiful beaches in Boracay", "Historical sites in Manila",
                      "Mountain resorts in Tagaytay", "Adventure activities in Palawan"] }
  else if truthyStr city && !truthyStr category then
    { message := "I don\x27t have that type of places in " ++ city.getD "" ++ ", but I have other options!"
      detectedCity := city
      availableCategories :=
        ((corpus.filter (fun d => lowerStr d.city == lowerStr (city.getD ""))).map
          (fun d => d.category)).eraseDups
      availableCities := (availableCitiesOf corpus).take 8 }
  else if truthyStr category && !truthyStr city then
    { message := "I have " ++ category.getD "" ++ " places in these cities:"
      detectedCategory := category
      availableCities :=
        ((corpus.filter (fun d => lowerStr d.category == lowerStr (category.getD ""))).map
          (fun d => d.city)).eraseDups }
  else
    { message := "I couldn\x27t find exactly what you\x27re looking for. Here are some suggestions:"
      availableCities := (availableCitiesOf corpus).take 8
      availableCategories := (availableCategoriesOf corpus).take 8 }

/-- The result of one recommend call: either a ranked payload
(`is_conversation = False`) or a conversational fallback payload
(`is_conversation = True`). -/
inductive RecResult where
  | ranked (recommendations : List RankedItem) (detectedCity detectedCategory : Option String)
      (totalFound : Nat)
  | conversation (payload : FallbackPayload)
deriving DecidableEq, Repr

/-- Does the payload carry `is_conversation = True`? -/
def RecResult.isConversation : RecResult → Bool
  | .ranked _ _ _ _ => false
  | .conversation _ => true

/-- `RecommendationEngine.get_recommendations` (`app.py` lines 162-235),
parametric in the similarity backend `sim`. -/
def lexGetRecommendations (sim : String → Destination → ℚ) (corpus : List Destination)
    (queryText : String) (limit : Int) (cityFilter categoryFilter : Option String)
    (ratingFilter : Option ℚ) : RecResult :=
  if (lexFilteredOf corpus queryText cityFilter categoryFilter ratingFilter).isEmpty then
    .conversation (handleNoResults corpus queryText
      (lexEffectiveFilters corpus queryText cityFilter categoryFilter ratingFilter).1
      (lexEffectiveFilters corpus queryText cityFilter categoryFilter ratingFilter).2.1)
  else
    .ranked
      ((sortDesc RankedItem.combinedScore
        (lexScored sim corpus queryText cityFilter categoryFilter ratingFilter)).take limit.toNat)
      (lexEffectiveFilters corpus queryText cityFilter categoryFilter ratingFilter).1
      (lexEffectiveFilters corpus queryText cityFilter categoryFilter ratingFilter).2.1
      (lexFilteredOf corpus queryText cityFilter categoryFilter ratingFilter).length

/-! ## The `/api/recommend` route (`app.py` lines 344-391) -/

/-- The parsed JSON body of a recommend request; `query = none` models a body
without the `"query"` key, `limit` defaults to 5. -/
structure RecommendRequest where
  query : Option String := none
  limit : Int := 5
  city : Option String := none
  category : Option String := none
  rating : Option ℚ := none
deriving DecidableEq, Repr

/-- The route response: a structured 400 error or a 200 payload. -/
inductive RouteResponse where
  | badRequest (error message : String)
  | ok (result : RecResult)
deriving DecidableEq, Repr

/-- Is the response the 400-equivalent error? -/
def RouteResponse.isBadRequest : RouteResponse → Bool
  | .badRequest _ _ => true
  | .ok _ => false

/-- The `/api/recommend` handler body (engine available): a missing or falsy
body, or a body without the `"query"` key, yields the 400 payload; any other
body (the empty-string query included) is forwarded to the pipeline. -/
def recommendRoute (sim : String → Destination → ℚ) (corpus : List Destination)
    (req : Option RecommendRequest) : RouteResponse :=
  match req with
  | none => .badRequest "Query is required" "Please tell me what you are looking for!"
  | some d =>
    match d.query with
    | none => .badRequest "Query is required" "Please tell me what you are looking for!"
    | some q => .ok (lexGetRecommendations sim corpus q d.limit d.city d.category d.rating)

/-! ## Embedding variant (`model.py` `get_recommendations`, lines 238-306) -/

/-- The city mask of `model.py` line 274. -/
def cityMaskM (c : String) (p : Nat × Destination) : Bool :=
  lowerStr p.2.city == lowerStr c

/-- The category mask of `model.py` lines 280-282 (any of the row's
`all_categories` equals the filter, case-insensitively). -/
def catMaskM (c : String) (p : Nat × Destination) : Bool :=
  p.2.categories.any (fun cat => lowerStr cat == lowerStr c)

/-- The budget mask of `model.py` line 289: numeric budget at most
`budget_amount * 1.2`; a `NaN` budget never passes. -/
def budgetMaskM (a : ℚ) (p : Nat × Destination) : Bool :=
  match p.2.budget with
  | some b => decide (b ≤ a * (6 / 5))
  | none => false

/-- `model.py` lines 272-276: the city filter applies only when truthy and
only if at least one row matches (`if any(city_mask):`), otherwise it is
skipped. -/
def applyCityFilterM (city : Option String) (l : List (Nat × Destination)) :
    List (Nat × Destination) :=
  match city with
  | some c =>
    if c.isEmpty then l
    else if l.any (cityMaskM c) then l.filter (cityMaskM c) else l
  | none => l

/-- `model.py` lines 278-284: the category filter, skipped when no row
matches. -/
def applyCategoryFilterM (category : Option String) (l : List (Nat × Destination)) :
    List (Nat × Destination) :=
  match category with
  | some c =>
    if c.isEmpty then l
    else if l.any (catMaskM c) then l.filter (catMaskM c) else l
  | none => l

/-- `model.py` lines 286-291: the budget filter (`budget_amount is not None`,
so an explicit 0 is active), skipped when no row is within the 20% buffer. -/
def applyBudgetFilterM (budgetAmount : Option ℚ) (l : List (Nat × Destination)) :
    List (Nat × Destination) :=
  match budgetAmount with
  | some a => if l.any (budgetMaskM a) then l.filter (budgetMaskM a) else l
  | none => l

/-- The candidate set of the embedding variant after its three
skip-when-empty filters. -/
def modelFiltered (corpus : List Destination) (city category : Option String)
    (budgetAmount : Option ℚ) : List (Nat × Destination) :=
  applyBudgetFilterM budgetAmount (applyCategoryFilterM category (applyCityFilterM city corpus.enum))

/-- `model.py` `get_recommendations`: similarities are computed from the raw
`query_text`; if the (skip-when-empty) filtered set is nonempty the top
`top_n` of it by similarity are returned, otherwise the top `top_n` of the
whole corpus.  The function never produces a fallback payload. -/
def modelGetRecommendations (sim : String → Destination → ℚ) (corpus : List Destination)
    (queryText : String) (city category : Option String) (budgetAmount : Option ℚ)
    (topN : Int) : List ((Nat × Destination) × ℚ) :=
  let simOf := fun (p : Nat × Destination) => sim queryText p.2
  let filtered := modelFiltered corpus city category budgetAmount
  if filtered.isEmpty then
    (sortDesc (fun q => q.2) (corpus.enum.map (fun p => (p, simOf p)))).take topN.toNat
  else
    (sortDesc (fun q => q.2) (filtered.map (fun p => (p, simOf p)))).take topN.toNat

/-- The city filter applied unconditionally (plain AND-cascade semantics). -/
def strictCityStageM (city : Option String) (l : List (Nat × Destination)) :
    List (Nat × Destination) :=
  match city with
  | some c => if c.isEmpty then l else l.filter (cityMaskM c)
  | none => l

/-- The category filter applied unconditionally. -/
def strictCategoryStageM (category : Option String) (l : List (Nat × Destination)) :
    List (Nat × Destination) :=
  match category with
  | some c => if c.isEmpty then l else l.filter (catMaskM c)
  | none => l

/-- The budget filter applied unconditionally. -/
def strictBudgetStageM (budgetAmount : Option ℚ) (l : List (Nat × Destination)) :
    List (Nat × Destination) :=
  match budgetAmount with
  | some a => l.filter (budgetMaskM a)
  | none => l

/-- Modelled from the spec (§4.3 step 2): the plain AND cascade of the active
filters over the corpus, with no skip-when-empty behaviour — the candidate
set the specification says the embedding variant ranks over.  Masks are the
code's own (`cityMaskM`, `catMaskM`, `budgetMaskM`). -/
def specStrictFilterM (corpus : List Destination) (city category : Option String)
    (budgetAmount : Option ℚ) : List (Nat × Destination) :=
  strictBudgetStageM budgetAmount (strictCategoryStageM category (strictCityStageM city corpus.enum))

/-! ## Concrete corpus and backends used for witnesses and counterexamples -/

/-- A Manila restaurant row. -/
def dManila : Destination :=
  { id := 1, name := "Manila Grill", city := "Manila", province := "Metro Manila",
    description := "A classic grill house", category := "Restaurant",
    categories := ["Restaurant"], rating := 4, budget := some 500 }

/-- A one-row corpus. -/
def corpus1 : List Destination := [dManila]

/-- A second row: an expensive Tagaytay resort. -/
def dTagaytay : Destination :=
  { id := 2, name := "Ridge Resort", city := "Tagaytay", province := "Cavite",
    description := "A ridge resort with a view", category := "Resort",
    categories := ["Resort"], rating := 5, budget := some 2000 }

/-- A two-row corpus in index order. -/
def corpus2 : List Destination := [dManila, dTagaytay]

/-- A degenerate similarity backend assigning score 0 to everything. -/
def simZero : String → Destination → ℚ := fun _ _ => 0

/-- A backend that recognises only the cleaned text of the C4 counterexample
query, so that the score observed in the output reveals which text the
pipeline handed to the backend. -/
def simCleanedProbe : String → Destination → ℚ :=
  fun t _ => if t = "in" then 1 else 0

/-! ## Lemmas about the stable descending selection -/

theorem mem_insertDesc {α : Type _} (key : α → ℚ) (a : α) (l : List α) (x : α) :
    x ∈ insertDesc key a l ↔ x = a ∨ x ∈ l := by
  induction l with
  | nil => simp [insertDesc]
  | cons b bs ih =>
    by_cases hba : key b ≤ key a
    · simp [insertDesc, if_pos hba, List.mem_cons]
    · simp only [insertDesc, if_neg hba, List.mem_cons, ih]
      tauto

theorem length_insertDesc {α : Type _} (key : α → ℚ) (a : α) (l : List α) :
    (insertDesc key a l).length = l.length + 1 := by
  induction l with
  | nil => rfl
  | cons b bs ih =>
    by_cases hba : key b ≤ key a
    · simp [insertDesc, if_pos hba]
    · simp [insertDesc, if_neg hba, ih]

theorem mem_sortDesc {α : Type _} (key : α → ℚ) (l : List α) (x : α) :
    x ∈ sortDesc key l ↔ x ∈ l := by
  induction l with
  | nil => simp [sortDesc]
  | cons b bs ih =>
    simp [sortDesc, mem_insertDesc, ih, List.mem_cons]

theorem length_sortDesc {α : Type _} (key : α → ℚ) (l : List α) :
    (sortDesc key l).length = l.length := by
  induction l with
  | nil => rfl
  | cons b bs ih => simp [sortDesc, length_insertDesc, ih]

theorem pairwise_ge_insertDesc {α : Type _} (key : α → ℚ) (a : α) (l : List α)
    (hl : List.Pairwise (fun x y => key y ≤ key x) l) :
    List.Pairwise (fun x y => key y ≤ key x) (insertDesc key a l) := by
  induction l with
  | nil => simp [insertDesc]
  | cons b bs ih =>
    rw [List.pairwise_cons] at hl
    obtain ⟨hb, hbs⟩ := hl
    by_cases hba : key b ≤ key a
    · rw [insertDesc, if_pos hba]
      refine List.Pairwise.cons ?_ (List.Pairwise.cons hb hbs)
      intro y hy
      rcases List.mem_cons.mp hy with rfl | hy2
      · exact hba
      · exact le_trans (hb y hy2) hba
    · rw [insertDesc, if_neg hba]
      refine List.Pairwise.cons ?_ (ih hbs)
      intro y hy
      rcases (mem_insertDesc key a bs y).mp hy with rfl | hy2
      · exact le_of_lt (lt_of_not_le hba)
      · exact hb y hy2

theorem pairwise_ge_sortDesc {α : Type _} (key : α → ℚ) (l : List α) :
    List.Pairwise (fun x y => key y ≤ key x) (sortDesc key l) := by
  induction l with
  | nil => simp [sortDesc]
  | cons b bs ih => exact pairwise_ge_insertDesc key b (sortDesc key bs) ih

theorem pairwise_lex_insertDesc {α : Type _} (key : α → ℚ) (idx : α → Nat) (a : α) (l : List α)
    (hl : List.Pairwise (fun x y => key y ≤ key x ∧ (key x ≤ key y → idx x < idx y)) l)
    (ha : ∀ y ∈ l, idx a < idx y) :
    List.Pairwise (fun x y => key y ≤ key x ∧ (key x ≤ key y → idx x < idx y))
      (insertDesc key a l) := by
  induction l with
  | nil => simp [insertDesc]
  | cons b bs ih =>
    rw [List.pairwise_cons] at hl
    obtain ⟨hb, hbs⟩ := hl
    by_cases hba : key b ≤ key a
    · rw [insertDesc, if_pos hba]
      refine List.Pairwise.cons ?_ (List.Pairwise.cons hb hbs)
      intro y hy
      rcases List.mem_cons.mp hy with rfl | hy2
      · exact ⟨hba, fun _ => ha y (List.mem_cons_self _ _)⟩
      · exact ⟨le_trans (hb y hy2).1 hba, fun _ => ha y (List.mem_cons_of_mem _ hy2)⟩
    · rw [insertDesc, if_neg hba]
      refine List.Pairwise.cons ?_
        (ih hbs (fun y hy => ha y (List.mem_cons_of_mem _ hy)))
      intro y hy
      rcases (mem_insertDesc key a bs y).mp hy with rfl | hy2
      · exact ⟨le_of_lt (lt_of_not_le hba), fun h => absurd h hba⟩
      · exact hb y hy2

theorem pairwise_lex_sortDesc {α : Type _} (key : α → ℚ) (idx : α → Nat) (l : List α)
    (hl : List.Pairwise (fun x y => idx x < idx y) l) :
    List.Pairwise (fun x y => key y ≤ key x ∧ (key x ≤ key y → idx x < idx y))
      (sortDesc key l) := by
  induction l with
  | nil => simp [sortDesc]
  | cons b bs ih =>
    rw [List.pairwise_cons] at hl
    obtain ⟨hb, hbs⟩ := hl
    exact pairwise_lex_insertDesc key idx b (sortDesc key bs) (ih hbs)
      (fun y hy => hb y ((mem_sortDesc key bs y).mp hy))

/-- Elements of `take n (sortDesc key l)` dominate every element of `l` that
was not taken: anything strictly better than a taken element is taken. -/
theorem take_sortDesc_topness {α : Type _} (key : α → ℚ) (l : List α) (n : Nat)
    (a c : α) (hha : a ∈ (sortDesc key l).take n) (hc : c ∈ l)
    (hlt : key a < key c) : c ∈ (sortDesc key l).take n := by
  have hcs : c ∈ sortDesc key l := (mem_sortDesc key l c).mpr hc
  rw [← List.take_append_drop n (sortDesc key l)] at hcs
  rcases List.mem_append.mp hcs with h | h
  · exact h
  · exfalso
    have hsplit := pairwise_ge_sortDesc key l
    rw [← List.take_append_drop n (sortDesc key l), List.pairwise_append] at hsplit
    exact absurd hlt (not_lt.mpr (hsplit.2.2 a hha c h))

/-! ## Lemmas about `enum` indices -/

theorem fst_ge_of_mem_enumFrom {α : Type _} :
    ∀ (n : Nat) (l : List α) (p : Nat × α), p ∈ List.enumFrom n l → n ≤ p.1 := by
  intro n l
  induction l generalizing n with
  | nil => intro p hp; simp [List.enumFrom] at hp
  | cons x xs ih =>
    intro p hp
    rcases List.mem_cons.mp hp with rfl | hp2
    · exact le_refl n
    · exact le_trans (Nat.le_succ n) (ih (n + 1) p hp2)

theorem pairwise_fst_lt_enumFrom {α : Type _} :
    ∀ (n : Nat) (l : List α), List.Pairwise (fun p q => p.1 < q.1) (List.enumFrom n l) := by
  intro n l
  induction l generalizing n with
  | nil => simp [List.enumFrom]
  | cons x xs ih =>
    refine List.Pairwise.cons ?_ (ih (n + 1))
    intro q hq
    have := fst_ge_of_mem_enumFrom (n + 1) xs q hq
    simp only [List.enumFrom]
    omega

theorem pairwise_fst_lt_enum {α : Type _} (l : List α) :
    List.Pairwise (fun p q => p.1 < q.1) l.enum :=
  pairwise_fst_lt_enumFrom 0 l

/-! ## Lemmas about the lexical filter cascade -/

theorem mem_lexCityStage {city : Option String} {l : List (Nat × Destination)}
    {p : Nat × Destination} (h : p ∈ lexCityStage city l) :
    p ∈ l ∧ cityOkB city p.2 = true := by
  cases city with
  | none => exact ⟨h, rfl⟩
  | some c =>
    by_cases hc : c.isEmpty
    · rw [lexCityStage, if_pos hc] at h
      exact ⟨h, by simp [cityOkB, hc]⟩
    · rw [lexCityStage, if_neg hc] at h
      rw [List.mem_filter] at h
      exact ⟨h.1, by simp [cityOkB, hc, h.2]⟩

theorem mem_lexCategoryStage {category : Option String} {l : List (Nat × Destination)}
    {p : Nat × Destination} (h : p ∈ lexCategoryStage category l) :
    p ∈ l ∧ catOkB category p.2 = true := by
  cases category with
  | none => exact ⟨h, rfl⟩
  | some c =>
    by_cases hc : c.isEmpty
    · rw [lexCategoryStage, if_pos hc] at h
      exact ⟨h, by simp [catOkB, hc]⟩
    · rw [lexCategoryStage, if_neg hc] at h
      rw [List.mem_filter] at h
      exact ⟨h.1, by simp [catOkB, hc, h.2]⟩

theorem mem_lexRatingStage {rt : Option ℚ} {l : List (Nat × Destination)}
    {p : Nat × Destination} (h : p ∈ lexRatingStage rt l) :
    p ∈ l ∧ ratingOkB rt p.2 = true := by
  cases rt with
  | none => exact ⟨h, rfl⟩
  | some r =>
    by_cases hr : (r == 0) = true
    · rw [lexRatingStage, if_pos hr] at h
      exact ⟨h, by simp [ratingOkB, hr]⟩
    · rw [lexRatingStage, if_neg hr] at h
      rw [List.mem_filter] at h
      exact ⟨h.1, by simp [ratingOkB, h.2]⟩

theorem mem_lexFilter {l : List (Nat × Destination)} {city category : Option String}
    {rt : Option ℚ} {p : Nat × Destination} (h : p ∈ lexFilter l city category rt) :
    p ∈ l ∧ cityOkB city p.2 = true ∧ catOkB category p.2 = true ∧ ratingOkB rt p.2 = true := by
  obtain ⟨h2, hrt⟩ := mem_lexRatingStage h
  obtain ⟨h1, hcat⟩ := mem_lexCategoryStage h2
  obtain ⟨h0, hcity⟩ := mem_lexCityStage h1
  exact ⟨h0, hcity, hcat, hrt⟩

theorem pairwise_lexCityStage {R : Nat × Destination → Nat × Destination → Prop}
    {l : List (Nat × Destination)} (city : Option String) (h : List.Pairwise R l) :
    List.Pairwise R (lexCityStage city l) := by
  cases city with
  | none => exact h
  | some c =>
    rw [lexCityStage]
    split
    · exact h
    · exact List.Pairwise.sublist (List.filter_sublist _) h

theorem pairwise_lexCategoryStage {R : Nat × Destination → Nat × Destination → Prop}
    {l : List (Nat × Destination)} (category : Option String) (h : List.Pairwise R l) :
    List.Pairwise R (lexCategoryStage category l) := by
  cases category with
  | none => exact h
  | some c =>
    rw [lexCategoryStage]
    split
    · exact h
    · exact List.Pairwise.sublist (List.filter_sublist _) h

theorem pairwise_lexRatingStage {R : Nat × Destination → Nat × Destination → Prop}
    {l : List (Nat × Destination)} (rt : Option ℚ) (h : List.Pairwise R l) :
    List.Pairwise R (lexRatingStage rt l) := by
  cases rt with
  | none => exact h
  | some r =>
    rw [lexRatingStage]
    split
    · exact h
    · exact List.Pairwise.sublist (List.filter_sublist _) h

theorem pairwise_lexFilter {R : Nat × Destination → Nat × Destination → Prop}
    {l : List (Nat × Destination)} (city category : Option String) (rt : Option ℚ)
    (h : List.Pairwise R l) : List.Pairwise R (lexFilter l city category rt) :=
  pairwise_lexRatingStage rt (pairwise_lexCategoryStage category (pairwise_lexCityStage city h))

/-! ## Lemmas about the pipeline branches -/

theorem lexGetRecommendations_ranked_eq {sim : String → Destination → ℚ}
    {corpus : List Destination} {q : String} {limit : Int} {cf kf : Option String}
    {rf : Option ℚ} {recs : List RankedItem} {dc dk : Option String} {tot : Nat}
    (h : lexGetRecommendations sim corpus q limit cf kf rf = RecResult.ranked recs dc dk tot) :
    recs = (sortDesc RankedItem.combinedScore (lexScored sim corpus q cf kf rf)).take limit.toNat ∧
    dc = (lexEffectiveFilters corpus q cf kf rf).1 ∧
    dk = (lexEffectiveFilters corpus q cf kf rf).2.1 ∧
    tot = (lexFilteredOf corpus q cf kf rf).length := by
  unfold lexGetRecommendations at h
  split at h
  · exact absurd h (by simp)
  · injection h with h1 h2 h3 h4
    exact ⟨h1.symm, h2.symm, h3.symm, h4.symm⟩

theorem lexGetRecommendations_of_empty (sim : String → Destination → ℚ)
    (corpus : List Destination) (q : String) (limit : Int) (cf kf : Option String)
    (rf : Option ℚ) (h : lexFilteredOf corpus q cf kf rf = []) :
    lexGetRecommendations sim corpus q limit cf kf rf =
      RecResult.conversation (handleNoResults corpus q
        (lexEffectiveFilters corpus q cf kf rf).1
        (lexEffectiveFilters corpus q cf kf rf).2.1) := by
  unfold lexGetRecommendations
  rw [if_pos (List.isEmpty_iff.mpr h)]

theorem mem_recs_of_ranked {sim : String → Destination → ℚ} {corpus : List Destination}
    {q : String} {limit : Int} {cf kf : Option String} {rf : Option ℚ}
    {recs : List RankedItem} {dc dk : Option String} {tot : Nat} {it : RankedItem}
    (h : lexGetRecommendations sim corpus q limit cf kf rf = RecResult.ranked recs dc dk tot)
    (hit : it ∈ recs) : it ∈ lexScored sim corpus q cf kf rf := by
  obtain ⟨hr, _, _, _⟩ := lexGetRecommendations_ranked_eq h
  subst hr
  exact (mem_sortDesc _ _ _).mp (List.take_subset _ _ hit)

/-! ## Lemmas about the embedding variant's skip-when-empty filters -/

theorem strictCategoryStageM_nil (category : Option String) :
    strictCategoryStageM category [] = [] := by
  cases category with
  | none => rfl
  | some c => by_cases hc : c.isEmpty <;> simp [strictCategoryStageM, hc]

theorem strictBudgetStageM_nil (ba : Option ℚ) : strictBudgetStageM ba [] = [] := by
  cases ba <;> rfl

theorem applyCityFilterM_eq_strict (city : Option String) (l : List (Nat × Destination))
    (h : strictCityStageM city l ≠ []) : applyCityFilterM city l = strictCityStageM city l := by
  cases city with
  | none => rfl
  | some c =>
    by_cases hc : c.isEmpty
    · simp [applyCityFilterM, strictCityStageM, hc]
    · rw [strictCityStageM, if_neg hc] at h ⊢
      rw [applyCityFilterM, if_neg hc]
      obtain ⟨x, hx⟩ := List.exists_mem_of_ne_nil _ h
      rw [List.mem_filter] at hx
      rw [if_pos (List.any_eq_true.mpr ⟨x, hx.1, hx.2⟩)]

theorem applyCategoryFilterM_eq_strict (category : Option String) (l : List (Nat × Destination))
    (h : strictCategoryStageM category l ≠ []) :
    applyCategoryFilterM category l = strictCategoryStageM category l := by
  cases category with
  | none => rfl
  | some c =>
    by_cases hc : c.isEmpty
    · simp [applyCategoryFilterM, strictCategoryStageM, hc]
    · rw [strictCategoryStageM, if_neg hc] at h ⊢
      rw [applyCategoryFilterM, if_neg hc]
      obtain ⟨x, hx⟩ := List.exists_mem_of_ne_nil _ h
      rw [List.mem_filter] at hx
      rw [if_pos (List.any_eq_true.mpr ⟨x, hx.1, hx.2⟩)]

theorem applyBudgetFilterM_eq_strict (ba : Option ℚ) (l : List (Nat × Destination))
    (h : strictBudgetStageM ba l ≠ []) : applyBudgetFilterM ba l = strictBudgetStageM ba l := by
  cases ba with
  | none => rfl
  | some a =>
    rw [strictBudgetStageM] at h ⊢
    rw [applyBudgetFilterM]
    obtain ⟨x, hx⟩ := List.exists_mem_of_ne_nil _ h
    rw [List.mem_filter] at hx
    rw [if_pos (List.any_eq_true.mpr ⟨x, hx.1, hx.2⟩)]

theorem modelFiltered_eq_strict (corpus : List Destination) (city category : Option String)
    (ba : Option ℚ) (h : specStrictFilterM corpus city category ba ≠ []) :
    modelFiltered corpus city category ba = specStrictFilterM corpus city category ba := by
  have h2 : strictCategoryStageM category (strictCityStageM city corpus.enum) ≠ [] := by
    intro hnil
    apply h
    rw [specStrictFilterM, hnil, strictBudgetStageM_nil]
  have h1 : strictCityStageM city corpus.enum ≠ [] := by
    intro hnil
    apply h2
    rw [hnil, strictCategoryStageM_nil]
  rw [modelFiltered, specStrictFilterM, applyCityFilterM_eq_strict city _ h1,
    applyCategoryFilterM_eq_strict category _ h2, applyBudgetFilterM_eq_strict ba _ h]

theorem mem_modelGetRecommendations_of_ne_nil {sim : String → Destination → ℚ}
    {corpus : List Destination} {q : String} {city category : Option String}
    {ba : Option ℚ} {topN : Int} {r : (Nat × Destination) × ℚ}
    (hne : modelFiltered corpus city category ba ≠ [])
    (hr : r ∈ modelGetRecommendations sim corpus q city category ba topN) :
    r.1 ∈ modelFiltered corpus city category ba := by
  simp only [modelGetRecommendations] at hr
  rw [if_neg (fun hh => hne (List.isEmpty_iff.mp hh))] at hr
  have hmem := (mem_sortDesc _ _ _).mp (List.take_subset _ _ hr)
  obtain ⟨p, hp, hpe⟩ := List.mem_map.mp hmem
  rw [← hpe]
  exact hp

/-! ## Claim theorems -/

/-- C5 (confirmed): every item of a returned ranked recommendation list has
combined score equal to `similarity_score * 0.7 + (rating / 5.0) * 0.3`,
where the similarity score is the backend's score for that destination. -/
theorem combined_score_formula (sim : String → Destination → ℚ) (corpus : List Destination)
    (q : String) (limit : Int) (cf kf : Option String) (rf : Option ℚ)
    (recs : List RankedItem) (dc dk : Option String) (tot : Nat)
    (h : lexGetRecommendations sim corpus q limit cf kf rf = RecResult.ranked recs dc dk tot) :
    ∀ it ∈ recs,
      it.combinedScore = it.similarityScore * (7 / 10) + it.dest.rating / 5 * (3 / 10) ∧
      it.similarityScore = sim (lexSearchText q) it.dest := by
  intro it hit
  have hsc := mem_recs_of_ranked h hit
  unfold lexScored at hsc
  obtain ⟨p, _, rfl⟩ := List.mem_map.mp hsc
  exact ⟨rfl, rfl⟩

/-- C5 witness: the concrete ranked output of the one-row corpus satisfies
the combined-score formula. -/
theorem combined_score_formula_witness :
    (⟨dManila, 0, 0, 6 / 25⟩ : RankedItem).combinedScore =
        (⟨dManila, 0, 0, 6 / 25⟩ : RankedItem).similarityScore * (7 / 10) +
          (⟨dManila, 0, 0, 6 / 25⟩ : RankedItem).dest.rating / 5 * (3 / 10) ∧
      (⟨dManila, 0, 0, 6 / 25⟩ : RankedItem).similarityScore =
        simZero (lexSearchText "hello") (⟨dManila, 0, 0, 6 / 25⟩ : RankedItem).dest :=
  combined_score_formula simZero corpus1 "hello" 5 none none none
    [⟨dManila, 0, 0, 6 / 25⟩] none none 1 (by with_unfolding_all decide)
    ⟨dManila, 0, 0, 6 / 25⟩ (by with_unfolding_all decide)

/-- C4 (corrected) counterexample: for the query `"restaurant in Manila"`
the lexical pipeline detects city `"Manila"` and category `"Restaurant"`,
the cleaned query text is `"in"`, yet the pipeline hands the backend the
lowercased raw text `"restaurant in manila"`: a backend that scores the
cleaned text 1 reports similarity 0 in the returned item. -/
theorem raw_query_scored_cex :
    (extractQueryInfoLex (availableCitiesOf corpus1) (availableCategoriesOf corpus1)
        "restaurant in Manila").city = some "Manila" ∧
    (extractQueryInfoLex (availableCitiesOf corpus1) (availableCategoriesOf corpus1)
        "restaurant in Manila").category = some "Restaurant" ∧
    cleanedQueryM "restaurant in Manila" (some "Manila") (some "Restaurant") = "in" ∧
    lexSearchText "restaurant in Manila" = "restaurant in manila" ∧
    simCleanedProbe (cleanedQueryM "restaurant in Manila" (some "Manila") (some "Restaurant"))
        dManila = 1 ∧
    lexGetRecommendations simCleanedProbe corpus1 "restaurant in Manila" 5 none none none =
      RecResult.ranked [⟨dManila, 0, 0, 6 / 25⟩] (some "Manila") (some "Restaurant") 1 := by
  with_unfolding_all decide

/-- C4 (corrected, amended): the similarity backend always scores the
lowercased raw query text — the cleaned query text computed by the
interpreter is never the effective search text. -/
theorem search_text_is_raw_amended (sim : String → Destination → ℚ) (corpus : List Destination)
    (q : String) (limit : Int) (cf kf : Option String) (rf : Option ℚ)
    (recs : List RankedItem) (dc dk : Option String) (tot : Nat)
    (h : lexGetRecommendations sim corpus q limit cf kf rf = RecResult.ranked recs dc dk tot) :
    ∀ it ∈ recs, it.similarityScore = sim (lexSearchText q) it.dest := by
  intro it hit
  have hsc := mem_recs_of_ranked h hit
  unfold lexScored at hsc
  obtain ⟨p, _, rfl⟩ := List.mem_map.mp hsc
  rfl

/-- C4 witness: the amended statement applied to the counterexample run. -/
theorem search_text_is_raw_amended_witness :
    (⟨dManila, 0, 0, 6 / 25⟩ : RankedItem).similarityScore =
      simCleanedProbe (lexSearchText "restaurant in Manila")
        (⟨dManila, 0, 0, 6 / 25⟩ : RankedItem).dest :=
  search_text_is_raw_amended simCleanedProbe corpus1 "restaurant in Manila" 5 none none none
    [⟨dManila, 0, 0, 6 / 25⟩] (some "Manila") (some "Restaurant") 1
    (by with_unfolding_all decide) ⟨dManila, 0, 0, 6 / 25⟩ (by with_unfolding_all decide)

/-- C9 (confirmed): with a nonempty filtered candidate set, the pipeline
returns a ranked payload whose list is empty when `limit ≤ 0` and whose
length never exceeds a nonnegative `limit`; no error path is taken. -/
theorem limit_bounds (sim : String → Destination → ℚ) (corpus : List Destination)
    (q : String) (limit : Int) (cf kf : Option String) (rf : Option ℚ)
    (h : lexFilteredOf corpus q cf kf rf ≠ []) :
    ∃ recs dc dk tot,
      lexGetRecommendations sim corpus q limit cf kf rf = RecResult.ranked recs dc dk tot ∧
      (limit ≤ 0 → recs = []) ∧
      (0 ≤ limit → (recs.length : Int) ≤ limit) := by
  have hne : ¬((lexFilteredOf corpus q cf kf rf).isEmpty = true) :=
    fun hh => h (List.isEmpty_iff.mp hh)
  refine ⟨(sortDesc RankedItem.combinedScore (lexScored sim corpus q cf kf rf)).take limit.toNat,
    (lexEffectiveFilters corpus q cf kf rf).1, (lexEffectiveFilters corpus q cf kf rf).2.1,
    (lexFilteredOf corpus q cf kf rf).length, ?_, ?_, ?_⟩
  · unfold lexGetRecommendations
    rw [if_neg hne]
  · intro hle
    rw [Int.toNat_of_nonpos hle, List.take_zero]
  · intro hge
    have h1 : ((sortDesc RankedItem.combinedScore
        (lexScored sim corpus q cf kf rf)).take limit.toNat).length ≤ limit.toNat := by
      rw [List.length_take]
      exact min_le_left _ _
    calc ((( sortDesc RankedItem.combinedScore
            (lexScored sim corpus q cf kf rf)).take limit.toNat).length : Int)
        ≤ (limit.toNat : Int) := by exact_mod_cast h1
      _ = limit := Int.toNat_of_nonneg hge

/-- C9 witness: the one-row corpus with limit 0 yields a ranked payload with
an empty list. -/
theorem limit_bounds_witness :
    lexFilteredOf corpus1 "hello" none none none ≠ [] ∧
    ∃ recs dc dk tot,
      lexGetRecommendations simZero corpus1 "hello" 0 none none none =
        RecResult.ranked recs dc dk tot ∧ recs = [] := by
  refine ⟨by with_unfolding_all decide, ?_⟩
  obtain ⟨recs, dc, dk, tot, heq, hempty, _⟩ :=
    limit_bounds simZero corpus1 "hello" 0 none none none (by with_unfolding_all decide)
  exact ⟨recs, dc, dk, tot, heq, hempty (le_refl 0)⟩

/-- C2 (corrected) counterexample: with one Manila row and the city filter
`"Cebu"`, the active filters applied as an AND cascade leave no candidate,
yet the embedding variant returns a nonempty ranked list (the Manila row)
instead of a fallback payload — its city filter is silently skipped and it
never produces a conversational result. -/
theorem model_no_fallback_cex :
    specStrictFilterM corpus1 (some "Cebu") none none = [] ∧
    modelGetRecommendations simZero corpus1 "beach trip" (some "Cebu") none none 5 =
      [((0, dManila), 0)] := by
  with_unfolding_all decide

/-- C2 (corrected, amended): for the lexical engine an empty filtered
candidate set always yields a conversational fallback payload and the
pipeline never reaches scoring; the embedding variant has no fallback path at
all (its filters are skipped whenever they would empty the candidate set). -/
theorem empty_candidates_fallback_amended (sim : String → Destination → ℚ)
    (corpus : List Destination) (q : String) (limit : Int) (cf kf : Option String)
    (rf : Option ℚ) (h : lexFilteredOf corpus q cf kf rf = []) :
    lexGetRecommendations sim corpus q limit cf kf rf =
      RecResult.conversation (handleNoResults corpus q
        (lexEffectiveFilters corpus q cf kf rf).1
        (lexEffectiveFilters corpus q cf kf rf).2.1) ∧
    (lexGetRecommendations sim corpus q limit cf kf rf).isConversation = true := by
  have heq := lexGetRecommendations_of_empty sim corpus q limit cf kf rf h
  exact ⟨heq, by rw [heq]; rfl⟩

/-- C2 witness: a caller city filter with no matching row drives the lexical
engine into the fallback branch. -/
theorem empty_candidates_fallback_amended_witness :
    lexFilteredOf corpus1 "food trip" (some "Cebu") none none = [] ∧
    (lexGetRecommendations simZero corpus1 "food trip" 5 (some "Cebu") none none).isConversation =
      true := by
  refine ⟨by with_unfolding_all decide, ?_⟩
  exact (empty_candidates_fallback_amended simZero corpus1 "food trip" 5 (some "Cebu") none none
    (by with_unfolding_all decide)).2

/-- C1 (corrected) counterexample: the embedding variant's city filter is
active (`"Cebu"`, nonempty) but no row matches it, so the filter is skipped
and the returned item's city is `"Manila"`, violating the active filter. -/
theorem model_city_filter_skipped_cex :
    ("Cebu" : String).isEmpty = false ∧
    modelGetRecommendations simZero corpus1 "food" (some "Cebu") none none 5 =
      [((0, dManila), 0)] ∧
    (lowerStr dManila.city == lowerStr "Cebu") = false := by
  with_unfolding_all decide

/-- C1 (corrected, amended): every item returned by the lexical engine
satisfies all active effective filters (city, category, rating floor)
exactly; for the embedding variant this holds only when the strict AND
cascade of the active filters is nonempty, in which case every returned item
lies in that strictly filtered set. -/
theorem filters_respected_amended :
    (∀ (sim : String → Destination → ℚ) (corpus : List Destination) (q : String) (limit : Int)
        (cf kf : Option String) (rf : Option ℚ) (recs : List RankedItem)
        (dc dk : Option String) (tot : Nat),
      lexGetRecommendations sim corpus q limit cf kf rf = RecResult.ranked recs dc dk tot →
      ∀ it ∈ recs,
        cityOkB (lexEffectiveFilters corpus q cf kf rf).1 it.dest = true ∧
        catOkB (lexEffectiveFilters corpus q cf kf rf).2.1 it.dest = true ∧
        ratingOkB (lexEffectiveFilters corpus q cf kf rf).2.2 it.dest = true) ∧
    (∀ (sim : String → Destination → ℚ) (corpus : List Destination) (q : String)
        (city category : Option String) (ba : Option ℚ) (topN : Int)
        (r : (Nat × Destination) × ℚ),
      specStrictFilterM corpus city category ba ≠ [] →
      r ∈ modelGetRecommendations sim corpus q city category ba topN →
      r.1 ∈ specStrictFilterM corpus city category ba) := by
  constructor
  · intro sim corpus q limit cf kf rf recs dc dk tot h it hit
    have hsc := mem_recs_of_ranked h hit
    unfold lexScored at hsc
    obtain ⟨p, hp, rfl⟩ := List.mem_map.mp hsc
    simp only [lexFilteredOf] at hp
    obtain ⟨_, hcity, hcat, hrt⟩ := mem_lexFilter hp
    exact ⟨hcity, hcat, hrt⟩
  · intro sim corpus q city category ba topN r hne hr
    have heq := modelFiltered_eq_strict corpus city category ba hne
    have hmem : r.1 ∈ modelFiltered corpus city category ba :=
      mem_modelGetRecommendations_of_ne_nil (by rw [heq]; exact hne) hr
    rwa [heq] at hmem

/-- C1 witness: both halves applied to concrete runs of the two engines. -/
theorem filters_respected_amended_witness :
    (cityOkB (lexEffectiveFilters corpus1 "restaurant in Manila" none none none).1 dManila = true ∧
     catOkB (lexEffectiveFilters corpus1 "restaurant in Manila" none none none).2.1 dManila = true ∧
     ratingOkB (lexEffectiveFilters corpus1 "restaurant in Manila" none none none).2.2 dManila =
       true) ∧
    ((0, dManila), (0 : ℚ)).1 ∈ specStrictFilterM corpus1 (some "Manila") none none := by
  constructor
  · exact filters_respected_amended.1 simZero corpus1 "restaurant in Manila" 5 none none none
      [⟨dManila, 0, 0, 6 / 25⟩] (some "Manila") (some "Restaurant") 1
      (by with_unfolding_all decide) ⟨dManila, 0, 0, 6 / 25⟩ (by with_unfolding_all decide)
  · exact filters_respected_amended.2 simZero corpus1 "food" (some "Manila") none none 5
      ((0, dManila), 0) (by with_unfolding_all decide) (by with_unfolding_all decide)

/-- C6 (confirmed): a returned ranked list is sorted by combined score
descending with ties in original corpus index order (stable), its length is
`min limit (number of candidates)`, and it is top-closed: any candidate
scoring strictly higher than a returned item is itself returned. -/
theorem ranking_order_and_stability (sim : String → Destination → ℚ)
    (corpus : List Destination) (q : String) (limit : Int) (cf kf : Option String)
    (rf : Option ℚ) (recs : List RankedItem) (dc dk : Option String) (tot : Nat)
    (h : lexGetRecommendations sim corpus q limit cf kf rf = RecResult.ranked recs dc dk tot) :
    List.Pairwise (fun a b : RankedItem => b.combinedScore ≤ a.combinedScore ∧
      (a.combinedScore = b.combinedScore → a.corpusIdx < b.corpusIdx)) recs ∧
    recs.length = min limit.toNat (lexScored sim corpus q cf kf rf).length ∧
    (∀ a ∈ recs, ∀ c ∈ lexScored sim corpus q cf kf rf,
      a.combinedScore < c.combinedScore → c ∈ recs) := by
  obtain ⟨hr, _, _, _⟩ := lexGetRecommendations_ranked_eq h
  subst hr
  refine ⟨?_, ?_, ?_⟩
  · have hidx : List.Pairwise (fun x y : RankedItem => x.corpusIdx < y.corpusIdx)
        (lexScored sim corpus q cf kf rf) := by
      simp only [lexScored, lexFilteredOf, List.pairwise_map]
      exact pairwise_lexFilter _ _ _ (pairwise_fst_lt_enum corpus)
    have hlex := pairwise_lex_sortDesc RankedItem.combinedScore RankedItem.corpusIdx _ hidx
    have htake := List.Pairwise.sublist (List.take_sublist limit.toNat
      (sortDesc RankedItem.combinedScore (lexScored sim corpus q cf kf rf))) hlex
    exact htake.imp (fun hxy => ⟨hxy.1, fun he => hxy.2 (le_of_eq he)⟩)
  · rw [List.length_take, length_sortDesc]
  · intro a ha c hc hlt
    exact take_sortDesc_topness RankedItem.combinedScore _ limit.toNat a c ha hc hlt

/-- C6 witness: the two-row corpus is returned sorted (resort 3/10 before
restaurant 6/25) and the length matches `min limit candidates`. -/
theorem ranking_order_and_stability_witness :
    ([⟨dTagaytay, 1, 0, 3 / 10⟩, ⟨dManila, 0, 0, 6 / 25⟩] : List RankedItem).length =
      min (Int.toNat 5) (lexScored simZero corpus2 "hello" none none none).length := by
  have h := ranking_order_and_stability simZero corpus2 "hello" 5 none none none
    [⟨dTagaytay, 1, 0, 3 / 10⟩, ⟨dManila, 0, 0, 6 / 25⟩] none none 2
    (by with_unfolding_all decide)
  exact h.2.1

/-- C7 (corrected) counterexample: the caller supplies the falsy rating
filter 0 while the query `"best food"` makes the interpreter detect 4.5;
the effective rating floor becomes 4.5 (not 0), and the 4.0-rated row is
filtered out, driving the pipeline into the fallback branch. -/
theorem falsy_override_cex :
    (lexEffectiveFilters corpus1 "best food" none none (some 0)).2.2 = some (9 / 2) ∧
    (lexEffectiveFilters corpus1 "best food" none none (some 0)).2.2 ≠ some 0 ∧
    (lexGetRecommendations simZero corpus1 "best food" 5 none none (some 0)).isConversation =
      true := by
  with_unfolding_all decide

/-- C7 (corrected, amended): a caller-supplied filter overrides the detected
value only when it is truthy (a nonempty city/category string, a nonzero
rating); falsy caller values (`None`, the empty string, 0) fall back to the
Query-Interpreter-detected value. -/
theorem override_requires_truthy_amended (corpus : List Destination) (q : String)
    (cf kf : Option String) (rf : Option ℚ) :
    (∀ c : String, cf = some c → c.isEmpty = false →
      (lexEffectiveFilters corpus q cf kf rf).1 = some c) ∧
    ((cf = none ∨ cf = some "") →
      (lexEffectiveFilters corpus q cf kf rf).1 =
        (extractQueryInfoLex (availableCitiesOf corpus) (availableCategoriesOf corpus) q).city) ∧
    (∀ k : String, kf = some k → k.isEmpty = false →
      (lexEffectiveFilters corpus q cf kf rf).2.1 = some k) ∧
    ((kf = none ∨ kf = some "") →
      (lexEffectiveFilters corpus q cf kf rf).2.1 =
        (extractQueryInfoLex (availableCitiesOf corpus) (availableCategoriesOf corpus)
          q).category) ∧
    (∀ x : ℚ, rf = some x → x ≠ 0 →
      (lexEffectiveFilters corpus q cf kf rf).2.2 = some x) ∧
    ((rf = none ∨ rf = some 0) →
      (lexEffectiveFilters corpus q cf kf rf).2.2 =
        (extractQueryInfoLex (availableCitiesOf corpus) (availableCategoriesOf corpus)
          q).ratingFilter) := by
  refine ⟨?_, ?_, ?_, ?_, ?_, ?_⟩
  · intro c hcf hc
    subst hcf
    simp [lexEffectiveFilters, pyOrStr, hc]
  · rintro (rfl | rfl) <;>
      simp [lexEffectiveFilters, pyOrStr, show ("" : String).isEmpty = true from by decide]
  · intro k hkf hk
    subst hkf
    simp [lexEffectiveFilters, pyOrStr, hk]
  · rintro (rfl | rfl) <;>
      simp [lexEffectiveFilters, pyOrStr, show ("" : String).isEmpty = true from by decide]
  · intro x hrf hx
    subst hrf
    simp [lexEffectiveFilters, pyOrQ, hx]
  · rintro (rfl | rfl) <;> simp [lexEffectiveFilters, pyOrQ]

/-- C7 witness: a truthy caller city wins; the falsy caller rating 0 defers
to the detected 4.5. -/
theorem override_requires_truthy_amended_witness :
    (lexEffectiveFilters corpus1 "best food" (some "Cebu") none (some 0)).1 = some "Cebu" ∧
    (lexEffectiveFilters corpus1 "best food" (some "Cebu") none (some 0)).2.2 = some (9 / 2) := by
  have h := override_requires_truthy_amended corpus1 "best food" (some "Cebu") none (some 0)
  refine ⟨h.1 "Cebu" rfl (by decide), ?_⟩
  rw [h.2.2.2.2.2 (Or.inr rfl)]
  with_unfolding_all decide

/-- C8 (corrected) counterexample: the query `"manila japan"` contains the
international keyword `"japan"`, yet the detected city Manila leaves a
nonempty candidate set, so the pipeline returns a ranked payload with no
`international_query_detected` flag at all. -/
theorem international_flag_cex :
    internationalKeywords.any (fun k => strContains (lowerStr "manila japan") k) = true ∧
    lexGetRecommendations simZero corpus1 "manila japan" 5 none none none =
      RecResult.ranked [⟨dManila, 0, 0, 6 / 25⟩] (some "Manila") none 1 ∧
    (lexGetRecommendations simZero corpus1 "manila japan" 5 none none none).isConversation =
      false := by
  with_unfolding_all decide

/-- C8 (corrected, amended): when the fallback advisor is reached (empty
filtered candidate set), an international keyword in the query yields a
conversational payload flagged `international_query_detected = true`, with
priority over every other fallback branch. -/
theorem international_priority_amended (sim : String → Destination → ℚ)
    (corpus : List Destination) (q : String) (limit : Int) (cf kf : Option String)
    (rf : Option ℚ) (hempty : lexFilteredOf corpus q cf kf rf = [])
    (hkw : internationalKeywords.any (fun k => strContains (lowerStr q) k) = true) :
    ∃ p, lexGetRecommendations sim corpus q limit cf kf rf = RecResult.conversation p ∧
      p.internationalQueryDetected = true := by
  refine ⟨_, lexGetRecommendations_of_empty sim corpus q limit cf kf rf hempty, ?_⟩
  unfold handleNoResults
  rw [if_pos hkw]

/-- C8 witness: an empty candidate set plus the keyword `"japan"` produces
the flagged payload. -/
theorem international_priority_amended_witness :
    ∃ p, lexGetRecommendations simZero corpus1 "beach in japan" 5 (some "Cebu") none none =
        RecResult.conversation p ∧ p.internationalQueryDetected = true :=
  international_priority_amended simZero corpus1 "beach in japan" 5 (some "Cebu") none none
    (by with_unfolding_all decide) (by with_unfolding_all decide)

/-- C3 (corrected) counterexample: the request body with the empty-string
query is not rejected: it is forwarded to the pipeline and produces a ranked
payload (the whole corpus scored), not the 400 response. -/
theorem empty_query_accepted_cex :
    recommendRoute simZero corpus1 (some { query := some "" }) =
      RouteResponse.ok (RecResult.ranked [⟨dManila, 0, 0, 6 / 25⟩] none none 1) ∧
    (recommendRoute simZero corpus1 (some { query := some "" })).isBadRequest = false := by
  with_unfolding_all decide

/-- C3 (corrected, amended): the recommend route returns the structured
400-equivalent exactly when the body is missing/falsy or lacks the `query`
key; an empty-string query is passed to the scoring pipeline. -/
theorem invalid_query_amended (sim : String → Destination → ℚ) (corpus : List Destination)
    (req : Option RecommendRequest) :
    (recommendRoute sim corpus req).isBadRequest =
      (req.bind RecommendRequest.query).isNone := by
  cases req with
  | none => rfl
  | some d =>
    cases hq : d.query with
    | none => simp [recommendRoute, hq, RouteResponse.isBadRequest]
    | some q => simp [recommendRoute, hq, RouteResponse.isBadRequest]

/-- C10 (confirmed): with an explicit budget amount, if at least one
candidate's numeric budget is within `1.2 *` the amount then the budget
filter keeps exactly the candidates within that buffer; if none is within
the buffer the filter is skipped and the candidate set is unchanged. -/
theorem budget_buffer_filter (l : List (Nat × Destination)) (a : ℚ) :
    ((∃ p ∈ l, budgetMaskM a p = true) →
      applyBudgetFilterM (some a) l = l.filter (budgetMaskM a)) ∧
    ((∀ p ∈ l, budgetMaskM a p = false) →
      applyBudgetFilterM (some a) l = l) := by
  constructor
  · rintro ⟨p, hp, hm⟩
    rw [applyBudgetFilterM, if_pos (List.any_eq_true.mpr ⟨p, hp, hm⟩)]
  · intro hall
    rw [applyBudgetFilterM, if_neg]
    intro hany
    obtain ⟨p, hp, hm⟩ := List.any_eq_true.mp hany
    rw [hall p hp] at hm
    exact Bool.false_ne_true hm

/-- C10 witness: with budget 1000 the 500-peso row stays and the 2000-peso
row is dropped (2000 > 1200); with budget 100 no row is within the buffer
and the filter is skipped. -/
theorem budget_buffer_filter_witness :
    applyBudgetFilterM (some 1000) corpus2.enum = [(0, dManila)] ∧
    applyBudgetFilterM (some 100) corpus2.enum = corpus2.enum := by
  constructor
  · rw [(budget_buffer_filter corpus2.enum 1000).1
      ⟨(0, dManila), by with_unfolding_all decide, by with_unfolding_all decide⟩]
    with_unfolding_all decide
  · exact (budget_buffer_filter corpus2.enum 100).2 (by with_unfolding_all decide)
